import Mathlib

/-!
Shallow embedding of the LiveCodeRunner widget (three successive
implementations of the same browser widget: an inline php-wasm runner, a
worker-per-run variant, and a pending-map worker variant).

JavaScript strings are modelled as Lean `String`/`List Char`; optional or
possibly-`undefined` fields as `Option`; JS truthiness of strings ("" and
`undefined` are falsy) and of numbers (0 and `undefined` are falsy) is made
explicit.  Run identifiers are `Nat`.  The `pendingExecutions` `Map` keyed by
run id is modelled as a duplicate-free list of keys (`Map.set` inserts a key
once; `Map.delete` removes that key, hence `removeN` removes all occurrences).
Timers are modelled as events that may fire only while their id is recorded
as active; `clearTimeout` removes the id.
-/

/-- JS truthiness of a possibly-undefined string: `undefined` and `""` are falsy. -/
def truthyS : Option String → Bool
  | some s => if s = "" then false else true
  | none => false

/-- JS `a || d` for a possibly-undefined string `a` and string default `d`. -/
def jsOrStr (o : Option String) (d : String) : String :=
  match o with
  | some s => if s = "" then d else s
  | none => d

/-- JS truthiness of a possibly-undefined number: `undefined` and `0` are falsy. -/
def truthyN : Option Nat → Bool
  | some n => if n = 0 then false else true
  | none => false

/-- Membership test for a list of run ids (model of `Map.has`). -/
def memN : List Nat → Nat → Bool
  | [], _ => false
  | x :: xs, a => if x = a then true else memN xs a

/-- Removal of a key from a list of run ids (model of `Map.delete` /
`clearTimeout` on the timer registered under that id). -/
def removeN : List Nat → Nat → List Nat
  | [], _ => []
  | x :: xs, a => if x = a then removeN xs a else x :: removeN xs a

/-- Key insertion (model of `Map.set`: the key appears once). -/
def insertN (l : List Nat) (a : Nat) : List Nat :=
  if memN l a = true then l else a :: l

/-- Remove from `l` every id that occurs in `ks` (model of
`pendingExecutions.forEach(({timeoutId}) => clearTimeout(timeoutId))`). -/
def removeMany : List Nat → List Nat → List Nat
  | [], _ => []
  | x :: xs, ks => if memN ks x = true then removeMany xs ks else x :: removeMany xs ks

/-- Whitespace characters removed by JS `String.prototype.trim` (the subset
that can occur in the outputs modelled here). -/
def isJsSpace (c : Char) : Bool :=
  if c = ' ' then true
  else if c = '\t' then true
  else if c = '\n' then true
  else if c = '\r' then true
  else false

/-- Model of JS `s.trim()`. -/
def jsTrim (s : String) : String :=
  String.mk (((s.data.dropWhile isJsSpace).reverse.dropWhile isJsSpace).reverse)

/-- Does the second list start with the first? (helper for substring search). -/
def startsWithL : List Char → List Char → Bool
  | [], _ => true
  | _ :: _, [] => false
  | a :: as, b :: bs => if a = b then startsWithL as bs else false

/-- Model of JS `hay.includes(needle)`: `needle` occurs contiguously in the
second argument. -/
def hasSubstr (needle : List Char) : List Char → Bool
  | [] => startsWithL needle []
  | c :: rest => startsWithL needle (c :: rest) || hasSubstr needle rest

/-- Model of JS `s.toLowerCase()` on the ASCII strings that occur here. -/
def toLowerStr (s : String) : String := String.mk (s.data.map Char.toLower)

/-- Model of `err.message.toLowerCase().includes("timeout")`
(LiveCodeRunner.js line 462). -/
def jsIncludesTimeout (msg : String) : Bool :=
  hasSubstr "timeout".data (toLowerStr msg).data

/-- Does the list contain a `'>'`? (the `[\s\S]*>` tail of the tag regex:
the greedy arbitrary middle matches iff some later `'>'` exists). -/
def hasGt : List Char → Bool
  | [] => false
  | c :: cs => if c = '>' then true else hasGt cs

/-- Anchored match of the tag regex `/<\/?[a-z][\s\S]*>/i` at the head of the
list: `'<'`, an optional `'/'`, an ASCII letter (`[a-z]` with the `i` flag),
then anything, then `'>'`. -/
def tagAt : List Char → Bool
  | [] => false
  | a :: rest =>
    if a = '<' then
      match rest with
      | [] => false
      | b :: rest2 =>
        if b = '/' then
          match rest2 with
          | [] => false
          | c :: rest3 => c.isAlpha && hasGt rest3
        else b.isAlpha && hasGt rest2
    else false

/-- Unanchored regex search (`RegExp.prototype.test`): some suffix matches. -/
def containsTag : List Char → Bool
  | [] => false
  | c :: cs => tagAt (c :: cs) || containsTag cs

/-- The HTML-detection test `/<\/?[a-z][\s\S]*>/i.test(result)` applied to a
string (used by both worker variants on the normalized result). -/
def containsTagStr (s : String) : Bool := containsTag s.data

/-- Model of `looksLikeHTML` (LiveCodeRunner.js lines 55-58): a falsy or
non-string value yields false, otherwise the regex test. -/
def looksLikeHTML (s : String) : Bool :=
  if s = "" then false else containsTag s.data

/-- Declarative reading of the spec sentence amended with the optional slash:
the text contains a substring of the form `<`, optional `/`, a letter,
arbitrary content, `>`. -/
def SpecTagLike (cs : List Char) : Prop :=
  ∃ pre c mid post, c.isAlpha = true ∧
    (cs = pre ++ ('<' :: c :: (mid ++ '>' :: post)) ∨
     cs = pre ++ ('<' :: '/' :: c :: (mid ++ '>' :: post)))

/-- Declarative reading of the claim exactly as stated: the text contains a
substring of the form `<`, then a letter (no slash allowed), arbitrary
content, `>`. -/
def SpecTagLikeNoSlash (cs : List Char) : Prop :=
  ∃ pre c mid post, c.isAlpha = true ∧
    cs = pre ++ ('<' :: c :: (mid ++ '>' :: post))

/-- Anchored match of the claim's literal pattern (no slash): `<`, a letter,
anything, `>`. -/
def tagAtNoSlash : List Char → Bool
  | [] => false
  | a :: rest =>
    if a = '<' then
      match rest with
      | [] => false
      | b :: rest2 => b.isAlpha && hasGt rest2
    else false

/-- Unanchored search for the claim's literal pattern. -/
def containsTagNoSlash : List Char → Bool
  | [] => false
  | c :: cs => tagAtNoSlash (c :: cs) || containsTagNoSlash cs

/-- Per-character escaping of the three reserved characters (the "escaped
exactly once" reading: each source character is rendered independently). -/
def escChar (c : Char) : List Char :=
  if c = '&' then "&amp;".data
  else if c = '<' then "&lt;".data
  else if c = '>' then "&gt;".data
  else [c]

/-- Map `escChar` over a character list. -/
def escMap : List Char → List Char
  | [] => []
  | c :: cs => escChar c ++ escMap cs

/-- Global single-character replacement, the model of `s.replace(/c/g, rep)`. -/
def replaceChar (pat : Char) (rep : List Char) : List Char → List Char
  | [] => []
  | c :: cs => (if c = pat then rep else [c]) ++ replaceChar pat rep cs

/-- Model of `escapeHtml` (LiveCodeRunner.js lines 61-65): replace all `&`,
then all `<`, then all `>`. -/
def escapeHtml (s : String) : String :=
  String.mk (replaceChar '>' "&gt;".data
    (replaceChar '<' "&lt;".data
      (replaceChar '&' "&amp;".data s.data)))

/-- The widget status values (`idle | loading | running | stopped | timeout | error`). -/
inductive WStatus where
  | idle
  | loading
  | running
  | stopped
  | timeout
  | error
  deriving DecidableEq

/-! ### Pending-map worker implementation (src/unnamed/part_000) -/

/-- A message received from the worker (`ev.data`); absent fields are `none`. -/
structure WMsg where
  type : Option String
  id : Option Nat
  runId : Option Nat
  output : Option String
  result : Option String
  stdout : Option String
  stderr : Option String
  error : Option String
  message : Option String
  deriving DecidableEq

/-- `const runId = msg.id || msg.runId` followed by the `!runId` falsy check
(part_000 lines 27-31): yields the identifier used for matching, or `none`
when it is absent or `0`. -/
def msgRunId (m : WMsg) : Option Nat :=
  if truthyN m.id = true then m.id
  else if truthyN m.runId = true then m.runId
  else none

/-- JSON string escaping for the characters that can occur in the modelled
fields (model of the escaping `JSON.stringify` applies to string values). -/
def escJsonL : List Char → List Char
  | [] => []
  | c :: cs =>
    (if c = '"' then ['\\', '"']
     else if c = '\\' then ['\\', '\\']
     else if c = '\n' then ['\\', 'n']
     else if c = '\r' then ['\\', 'r']
     else if c = '\t' then ['\\', 't']
     else [c]) ++ escJsonL cs

/-- JSON string escaping on a `String`. -/
def escJson (s : String) : String := String.mk (escJsonL s.data)

/-- One serialized string-valued JSON member, or nothing when the field is
`undefined` (`JSON.stringify` skips undefined-valued properties). -/
def jsonField (name : String) (v : Option String) : List String :=
  match v with
  | some s => ["\"" ++ name ++ "\":\"" ++ escJson s ++ "\""]
  | none => []

/-- One serialized number-valued JSON member. -/
def jsonFieldN (name : String) (v : Option Nat) : List String :=
  match v with
  | some n => ["\"" ++ name ++ "\":" ++ toString n]
  | none => []

/-- Comma-join serialized members. -/
def joinComma : List String → String
  | [] => ""
  | [s] => s
  | s :: rest => s ++ "," ++ joinComma rest

/-- Model of `JSON.stringify(msg)` for a worker message, fields in the order
declared on the message record. -/
def jsonStringifyMsg (m : WMsg) : String :=
  "\x7b" ++
    joinComma (jsonField "type" m.type ++ jsonFieldN "id" m.id ++
      jsonFieldN "runId" m.runId ++ jsonField "output" m.output ++
      jsonField "result" m.result ++ jsonField "stdout" m.stdout ++
      jsonField "stderr" m.stderr ++ jsonField "error" m.error ++
      jsonField "message" m.message) ++
  "\x7d"

/-- The result-normalization chain of `handleWorkerMessage`
(part_000 lines 39-51): `msg.output`, else `msg.result`, else `msg.stdout`
with `'\n' + msg.stderr` appended when `msg.stderr` is truthy, else
`JSON.stringify(msg)`. -/
def normalizeMsg (m : WMsg) : String :=
  match m.output with
  | some o => o
  | none =>
    match m.result with
    | some r => r
    | none =>
      match m.stdout with
      | some so =>
        so ++ (match m.stderr with
               | some se => if se = "" then "" else "\n" ++ se
               | none => "")
      | none => jsonStringifyMsg m

/-- Widget state of the pending-map implementation: the React state
(`src`, `output`, `isHtmlOutput`, `status`, `lastError`), the run-id counter
ref, the keys of `pendingExecutions`, and the ids of timers that are set and
not yet fired or cleared. -/
structure WState where
  src : String
  output : String
  isHtmlOutput : Bool
  status : WStatus
  lastError : Option String
  runIdCounter : Nat
  pending : List Nat
  activeTimers : List Nat
  deriving DecidableEq

/-- Initial widget state for prop `c` (part_000 lines 7-17). -/
def initState (c : String) : WState :=
  { src := c, output := "", isHtmlOutput := false, status := WStatus.idle,
    lastError := none, runIdCounter := 0, pending := [], activeTimers := [] }

/-- Model of `handleWorkerMessage` (part_000 lines 26-81): resolve the id,
drop the message when the id is absent or not pending; otherwise settle the
matching execution with a result or an error. -/
def handleWorkerMessage (m : WMsg) (s : WState) : WState :=
  match msgRunId m with
  | none => s
  | some rid =>
    if memN s.pending rid = true then
      if m.type = some "result" ∨ m.type = some "output" ∨ m.output.isSome = true then
        let result := normalizeMsg m
        { s with activeTimers := removeN s.activeTimers rid,
                 pending := removeN s.pending rid,
                 isHtmlOutput := containsTagStr result,
                 output := result,
                 status := WStatus.idle }
      else if m.type = some "error" ∨ truthyS m.error = true then
        let errorMsg := jsOrStr m.error (jsOrStr m.message "Unknown error")
        { s with activeTimers := removeN s.activeTimers rid,
                 pending := removeN s.pending rid,
                 status := WStatus.error,
                 lastError := some errorMsg,
                 output := "[Error] " ++ errorMsg }
      else s
    else s

/-- Successful path of `runCode` (part_000 lines 265-297) up to posting the
run message: clear error/output, pass through `loading` to `running`, assign
the next run id, start its timer and record it pending. -/
def startRun (s : WState) : WState :=
  let rid := s.runIdCounter + 1
  { s with lastError := none, isHtmlOutput := false, output := "",
           status := WStatus.running, runIdCounter := rid,
           pending := insertN s.pending rid,
           activeTimers := insertN s.activeTimers rid }

/-- Failure path of `runCode` (part_000 lines 266-304): worker initialization
failed before `running` was entered; no timer is started and no pending entry
is created. -/
def startRunFail (emsg : String) (s : WState) : WState :=
  { s with lastError := some emsg, isHtmlOutput := false,
           status := WStatus.error, output := "[Error] " ++ emsg }

/-- The statuses assigned by `runCode`'s failure path, in order:
`setStatus("loading")` then `setStatus("error")`. -/
def startRunFailStatuses : List WStatus := [WStatus.loading, WStatus.error]

/-- The timer callback of a run (part_000 lines 282-289): the timer is
consumed; if the run is still pending it is removed and the widget shows the
timeout. -/
def timerFires (rid tms : Nat) (s : WState) : WState :=
  let s1 := { s with activeTimers := removeN s.activeTimers rid }
  if memN s1.pending rid = true then
    { s1 with pending := removeN s1.pending rid,
              status := WStatus.timeout,
              lastError := some ("Execution timeout after " ++ toString tms ++ " ms"),
              output := "[Error] Execution timeout" }
  else s1

/-- Model of `stopExecution` (part_000 lines 307-315): clear every pending
execution's timer, clear the map, show `stopped`.  The worker itself is kept
(abandoned, not terminated). -/
def stopExec (s : WState) : WState :=
  { s with activeTimers := removeMany s.activeTimers s.pending,
           pending := [],
           status := WStatus.stopped,
           output := "[Execution stopped]" }

/-- Model of `resetCode` (part_000 lines 317-322) for widget prop `c`. -/
def resetCode (c : String) (s : WState) : WState :=
  { s with src := c, output := "", status := WStatus.idle, lastError := none }

/-- Model of `clearOutput` (part_000 lines 324-327). -/
def clearOutput (s : WState) : WState :=
  { s with output := "", lastError := none }

/-- External events of the pending-map widget: a run that gets a ready worker,
a run whose worker initialization fails, a timer callback, a worker message,
and the stop/reset/clear buttons. -/
inductive WEvent where
  | runOk
  | runFail (emsg : String)
  | timer (rid tms : Nat)
  | wmsg (m : WMsg)
  | stop
  | reset
  | clear
  deriving DecidableEq

/-- One step of the pending-map widget.  Run and Stop apply only when their
buttons are enabled (`disabled={status === "running" || status === "loading"}`
and `disabled={pendingExecutions.current.size === 0}`); a timer callback can
only run for a timer that is set and not cleared. -/
def wStep (c : String) (s : WState) : WEvent → WState
  | WEvent.runOk =>
    if s.status = WStatus.running ∨ s.status = WStatus.loading then s else startRun s
  | WEvent.runFail e =>
    if s.status = WStatus.running ∨ s.status = WStatus.loading then s else startRunFail e s
  | WEvent.timer rid tms =>
    if memN s.activeTimers rid = true then timerFires rid tms s else s
  | WEvent.wmsg m => handleWorkerMessage m s
  | WEvent.stop => if s.pending = [] then s else stopExec s
  | WEvent.reset => resetCode c s
  | WEvent.clear => clearOutput s

/-- Iterated steps. -/
def wSteps (c : String) (s : WState) (es : List WEvent) : WState :=
  List.foldl (wStep c) s es

/-! ### Worker-per-run implementation (LiveCodeRunner.js lines 263-644) -/

/-- A message received by `runWithWorker`'s `onmessage` handler. -/
structure WMsg2 where
  type : Option String
  id : Option Nat
  result : Option String
  error : Option String
  deriving DecidableEq

/-- Promise outcome of one `runWithWorker` call. -/
inductive RunOutcome where
  | resolved (result : String)
  | rejected (emsg : String)
  deriving DecidableEq

/-- State of one `runWithWorker` invocation: its captured id, the client
timeout, the `finished` flag, whether the worker is alive, whether
`workerRef.current` still points at this worker, whether the client timer is
still set, and the promise settlement (a promise settles at most once). -/
structure RWState where
  runId : Nat
  clientTimeout : Nat
  finished : Bool
  workerAlive : Bool
  workerRefIsThis : Bool
  timerActive : Bool
  settled : Option RunOutcome
  deriving DecidableEq

/-- State right after `runWithWorker` starts run `rid`: fresh worker,
`workerRef` set to it, client timer started, promise pending
(LiveCodeRunner.js lines 368-376 and 417-425). -/
def rwInit (rid tms : Nat) : RWState :=
  { runId := rid, clientTimeout := tms, finished := false, workerAlive := true,
    workerRefIsThis := true, timerActive := true, settled := none }

/-- Promise settlement: the first resolution or rejection wins, later ones
are no-ops. -/
def rwSettle (o : RunOutcome) (s : RWState) : RWState :=
  match s.settled with
  | some _ => s
  | none => { s with settled := some o }

/-- The `cleanup` helper (lines 378-383): terminate the worker and clear
`workerRef` if it still points here. -/
def rwCleanup (s : RWState) : RWState :=
  { s with workerAlive := false, workerRefIsThis := false }

/-- The `worker.onmessage` handler (lines 385-409).  A terminated worker
delivers no messages.  A message whose truthy id differs from the captured id
is dropped unless it is a debug message; debug messages are logged only;
`result`, `error` and `stopped` messages finish the run and settle the
promise; anything else falls through. -/
def rwOnMessage (m : WMsg2) (s : RWState) : RWState :=
  if s.workerAlive = false then s
  else if truthyN m.id = true ∧ m.id ≠ some s.runId ∧ m.type ≠ some "debug" then s
  else if m.type = some "debug" then s
  else if m.type = some "result" then
    rwSettle (RunOutcome.resolved (jsOrStr m.result "")) (rwCleanup { s with finished := true })
  else if m.type = some "error" then
    rwSettle (RunOutcome.rejected (jsOrStr m.error "Unknown error from worker"))
      (rwCleanup { s with finished := true })
  else if m.type = some "stopped" then
    rwSettle (RunOutcome.rejected "Execution stopped") (rwCleanup { s with finished := true })
  else s

/-- The `worker.onerror` handler (lines 411-415). -/
def rwOnError (em : Option String) (s : RWState) : RWState :=
  if s.workerAlive = false then s
  else rwSettle (RunOutcome.rejected (jsOrStr em "Worker runtime error"))
         (rwCleanup { s with finished := true })

/-- The client-timeout callback (lines 418-425): it fires once; when the run
is not finished it terminates the worker and rejects with the timeout
message.  Note that nothing ever clears this timer after a result, an error
or a user stop. -/
def rwTimer (s : RWState) : RWState :=
  if s.timerActive = true then
    let s1 := { s with timerActive := false }
    if s1.finished = true then s1
    else rwSettle
      (RunOutcome.rejected ("Client-side timeout after " ++ toString s.clientTimeout ++ " ms"))
      { s1 with finished := true, workerAlive := false, workerRefIsThis := false }
  else s

/-- Effect of `stopExecution` (lines 469-478) on this run's worker: if
`workerRef.current` is this worker it is terminated and the ref cleared.
Neither `finished` nor the client timer is touched. -/
def rwStop (s : RWState) : RWState :=
  if s.workerRefIsThis = true then { s with workerAlive := false, workerRefIsThis := false }
  else s

/-- Events that can reach one `runWithWorker` invocation. -/
inductive RWEvent where
  | wmsg (m : WMsg2)
  | werror (em : Option String)
  | timer
  | stopClick
  deriving DecidableEq

/-- One event step of a `runWithWorker` invocation. -/
def rwStep (s : RWState) : RWEvent → RWState
  | RWEvent.wmsg m => rwOnMessage m s
  | RWEvent.werror em => rwOnError em s
  | RWEvent.timer => rwTimer s
  | RWEvent.stopClick => rwStop s

/-- The run `rid` with client timeout `tms` after processing the events `es`. -/
def rwRun (rid tms : Nat) (es : List RWEvent) : RWState :=
  List.foldl rwStep (rwInit rid tms) es

/-- React state of the worker-per-run widget. -/
structure State2 where
  src : String
  output : String
  isHtmlOutput : Bool
  status : WStatus
  lastError : Option String
  deriving DecidableEq

/-- The status `runCode`'s continuation assigns for a given promise outcome
(lines 460-462): `idle` on success, `timeout` when the error message contains
"timeout" case-insensitively, otherwise `error`. -/
def statusOfOutcome (o : RunOutcome) : WStatus :=
  match o with
  | RunOutcome.resolved _ => WStatus.idle
  | RunOutcome.rejected em =>
    if jsIncludesTimeout em = true then WStatus.timeout else WStatus.error

/-- Continuation of `runCode` (lines 445-465) once the `runWithWorker`
promise settles with outcome `o`. -/
def finishRun2 (o : RunOutcome) (s : State2) : State2 :=
  match o with
  | RunOutcome.resolved r =>
    { s with isHtmlOutput := containsTagStr r, output := r, status := WStatus.idle }
  | RunOutcome.rejected em =>
    { s with status := statusOfOutcome (RunOutcome.rejected em),
             lastError := some em,
             output := "[Error] " ++ em }

/-- The statuses `runCode` (lines 438-466) assigns, in order: `loading`, then
`running` unconditionally before awaiting the worker, then the outcome's
status.  Note the load happens inside the worker, after `running` is set. -/
def runCode2Statuses (o : RunOutcome) : List WStatus :=
  [WStatus.loading, WStatus.running, statusOfOutcome o]

/-- Visible effect of `stopExecution` (lines 469-478) when a worker is
present. -/
def stopExec2 (workerPresent : Bool) (s : State2) : State2 :=
  if workerPresent = true then
    { s with status := WStatus.stopped, output := "[Execution stopped]" }
  else s

/-- Model of `resetCode` (lines 480-485). -/
def resetCode2 (c : String) (s : State2) : State2 :=
  { s with src := c, output := "", status := WStatus.idle, lastError := none }

/-! ### First implementation (LiveCodeRunner.js lines 1-263) -/

/-- The raw value a php-wasm `run` call can return: null/undefined, a plain
string, an object with optional `stdout`/`stderr` string fields, or some
other value together with its `String(...)` rendering. -/
inductive RawResult where
  | rnull
  | rstr (s : String)
  | robj (stdout : Option String) (stderr : Option String)
  | rother (stringified : String)
  deriving DecidableEq

/-- The result normalization of the first implementation's `runCode`
(lines 100-113): strings pass through, `{stdout, stderr}` objects are
combined with a newline before a truthy stderr and then trimmed, objects with
both streams falsy stringify to `"[object Object]"`, other values stringify. -/
def normalizeResult1 : RawResult → String
  | RawResult.rnull => ""
  | RawResult.rstr s => s
  | RawResult.robj so se =>
    if truthyS so = true ∨ truthyS se = true then
      jsTrim ((jsOrStr so "") ++ (if truthyS se = true then "\n" ++ jsOrStr se "" else ""))
    else "[object Object]"
  | RawResult.rother s => s

/-- What `renderOutput` (lines 167-192) produces. -/
inductive Rendered where
  | nothingR
  | errorDiv (msg : String)
  | iframeHtml (html : String)
  | preText (escaped : String)
  deriving DecidableEq

/-- Model of `renderOutput` (lines 167-192): nothing when output and error
are both falsy, the error division when an error is set, a sandboxed iframe
for HTML-looking output, otherwise escaped preformatted text. -/
def renderOutput1 (error : Option String) (output : String) : Rendered :=
  if output = "" ∧ truthyS error = false then Rendered.nothingR
  else if truthyS error = true then Rendered.errorDiv (jsOrStr error "")
  else if looksLikeHTML output = true then Rendered.iframeHtml output
  else Rendered.preText (escapeHtml output)

/-- React state of the first implementation. -/
structure S1 where
  src : String
  output : String
  isLoadingRuntime : Bool
  isRunning : Bool
  php : Option Unit
  error : Option String
  timedOut : Bool
  abortFlag : Bool
  deriving DecidableEq

/-- Model of `loadRuntime` (lines 27-52).  `snap` is the render-time closure
the handlers captured: the `php` and `isLoadingRuntime` checked on line 28
are the captured values, not the current state.  `outcome` is the result of
the dynamic import and runtime construction. -/
def loadRuntime1 (snap : S1) (outcome : Except String Unit) (s : S1) : S1 :=
  if snap.php.isSome = true ∨ snap.isLoadingRuntime = true then s
  else
    match outcome with
    | Except.ok e => { s with isLoadingRuntime := false, error := none, php := some e }
    | Except.error em => { s with isLoadingRuntime := false, error := some em }

/-- Outcome of `Promise.race([runPromise, timeoutPromise])` (line 129):
either the normalized run result or a rejection message (the timeout rejects
with `"Execution timed out after N ms"`). -/
inductive RaceOut where
  | settledR (r : RawResult)
  | errored (emsg : String)
  deriving DecidableEq

/-- Model of the first implementation's `runCode` (lines 68-149).  `snap` is
the render-time closure: both `if (!php)` checks (lines 76 and 79) read the
captured `php`, not the state updated by `loadRuntime`.  Returns the new
state and whether the engine was invoked. -/
def runCode1 (snap : S1) (loadOutcome : Except String Unit) (race : RaceOut) (s : S1) :
    S1 × Bool :=
  let s1 := { s with error := none, timedOut := false, abortFlag := false,
                     output := "", isRunning := true }
  let s2 := if snap.php.isSome = false then loadRuntime1 snap loadOutcome s1 else s1
  if snap.php.isSome = false then ({ s2 with isRunning := false }, false)
  else
    let s3 :=
      match race with
      | RaceOut.settledR r =>
        if s2.abortFlag = true then { s2 with output := "[Execution stopped by user]" }
        else { s2 with output := normalizeResult1 r }
      | RaceOut.errored em =>
        if hasSubstr "timed out".data (toLowerStr em).data = true then
          { s2 with timedOut := true, output := "[Execution timed out]" }
        else if s2.abortFlag = true then { s2 with output := "[Execution stopped by user]" }
        else { s2 with error := some em, output := "[Execution error — see console]" }
    ({ s3 with isRunning := false }, true)

/-! ### Helper lemmas -/

theorem memN_cons_self (x : Nat) (xs : List Nat) : memN (x :: xs) x = true := by
  simp [memN]

theorem memN_cons_of_mem (x y : Nat) (xs : List Nat) (h : memN xs y = true) :
    memN (x :: xs) y = true := by
  by_cases hxy : x = y <;> simp [memN, hxy, h]

theorem memN_removeN_self (l : List Nat) (a : Nat) : memN (removeN l a) a = false := by
  induction l with
  | nil => rfl
  | cons x xs ih =>
    by_cases hx : x = a
    · simp [removeN, hx, ih]
    · simp [removeN, memN, hx, ih]

theorem memN_removeN_of_false (l : List Nat) (a b : Nat) (h : memN l b = false) :
    memN (removeN l a) b = false := by
  induction l with
  | nil => rfl
  | cons x xs ih =>
    by_cases hxb : x = b
    · simp [memN, hxb] at h
    · by_cases hxa : x = a
      · simp [removeN, hxa]
        simp [memN, hxb] at h
        exact ih h
      · simp [memN, hxb] at h
        simp [removeN, hxa, memN, hxb]
        exact ih h

theorem memN_insertN_of_ne (l : List Nat) (a b : Nat) (h1 : b ≠ a)
    (h2 : memN l b = false) : memN (insertN l a) b = false := by
  unfold insertN
  split
  · exact h2
  · simp [memN]
    exact ⟨fun h => h1 h.symm, h2⟩

theorem removeMany_sub_nil (l ks : List Nat)
    (h : ∀ x, memN l x = true → memN ks x = true) : removeMany l ks = [] := by
  induction l with
  | nil => rfl
  | cons x xs ih =>
    have hx : memN ks x = true := h x (memN_cons_self x xs)
    simp [removeMany, hx]
    exact ih (fun y hy => h y (memN_cons_of_mem x y xs hy))

theorem startsWithL_append (n l l2 : List Char) (h : startsWithL n l = true) :
    startsWithL n (l ++ l2) = true := by
  induction n generalizing l with
  | nil => rfl
  | cons a as ih =>
    cases l with
    | nil => simp [startsWithL] at h
    | cons b bs =>
      by_cases hab : a = b
      · simp [startsWithL, hab] at h ⊢
        exact ih bs h
      · simp [startsWithL, hab] at h

theorem hasSubstr_nil (l : List Char) : hasSubstr [] l = true := by
  cases l <;> simp [hasSubstr, startsWithL]

theorem hasSubstr_append_left (n h1 h2 : List Char) (h : hasSubstr n h1 = true) :
    hasSubstr n (h1 ++ h2) = true := by
  induction h1 with
  | nil =>
    have hn : n = [] := by
      cases n with
      | nil => rfl
      | cons a as => simp [hasSubstr, startsWithL] at h
    rw [hn]
    exact hasSubstr_nil h2
  | cons c rest ih =>
    simp only [hasSubstr, Bool.or_eq_true] at h
    rcases h with h | h
    · have := startsWithL_append n (c :: rest) h2 h
      simp only [List.cons_append, hasSubstr, Bool.or_eq_true]
      left
      simpa using this
    · simp only [List.cons_append, hasSubstr, Bool.or_eq_true]
      right
      exact ih h

theorem jsIncludesTimeout_client (t : String) :
    jsIncludesTimeout ("Client-side timeout after " ++ t) = true := by
  unfold jsIncludesTimeout toLowerStr
  rw [String.data_append, List.map_append]
  exact hasSubstr_append_left _ _ _ (by decide)

theorem hasGt_iff (l : List Char) : hasGt l = true ↔ ∃ a b, l = a ++ '>' :: b := by
  induction l with
  | nil =>
    constructor
    · intro h; simp [hasGt] at h
    · rintro ⟨a, b, h⟩; simp at h
  | cons c cs ih =>
    by_cases hc : c = '>'
    · subst hc
      constructor
      · intro _; exact ⟨[], cs, rfl⟩
      · intro _; simp [hasGt]
    · have hstep : hasGt (c :: cs) = hasGt cs := by simp [hasGt, hc]
      rw [hstep, ih]
      constructor
      · rintro ⟨a, b, h⟩; exact ⟨c :: a, b, by rw [h]; rfl⟩
      · rintro ⟨a, b, h⟩
        cases a with
        | nil =>
          simp [List.cons.injEq] at h
          exact absurd h.1 hc
        | cons p ps =>
          simp [List.cons.injEq] at h
          exact ⟨ps, b, h.2⟩

theorem tagAt_iff (l : List Char) :
    tagAt l = true ↔
      ∃ c mid post, c.isAlpha = true ∧
        (l = '<' :: c :: (mid ++ '>' :: post) ∨
         l = '<' :: '/' :: c :: (mid ++ '>' :: post)) := by
  cases l with
  | nil =>
    constructor
    · intro h; simp [tagAt] at h
    · rintro ⟨c, mid, post, hα, h | h⟩ <;> simp at h
  | cons a rest =>
    by_cases ha : a = '<'
    · subst ha
      cases rest with
      | nil =>
        constructor
        · intro h; simp [tagAt] at h
        · rintro ⟨c, mid, post, hα, h | h⟩ <;> simp [List.cons.injEq] at h
      | cons b rest2 =>
        by_cases hb : b = '/'
        · subst hb
          cases rest2 with
          | nil =>
            constructor
            · intro h; simp [tagAt] at h
            · rintro ⟨c, mid, post, hα, h | h⟩ <;> simp [List.cons.injEq] at h
          | cons c0 rest3 =>
            have ht : tagAt ('<' :: '/' :: c0 :: rest3) = (c0.isAlpha && hasGt rest3) := by
              simp [tagAt]
            rw [ht, Bool.and_eq_true, hasGt_iff]
            constructor
            · rintro ⟨hα, a2, b2, hab⟩
              exact ⟨c0, a2, b2, hα, Or.inr (by rw [hab])⟩
            · rintro ⟨c, mid, post, hα, h | h⟩
              · simp [List.cons.injEq] at h
                rw [← h.1] at hα
                exact absurd hα (by decide)
              · simp [List.cons.injEq] at h
                obtain ⟨h1, h2⟩ := h
                subst h1
                exact ⟨hα, mid, post, h2⟩
        · have ht : tagAt ('<' :: b :: rest2) = (b.isAlpha && hasGt rest2) := by
            simp [tagAt, hb]
          rw [ht, Bool.and_eq_true, hasGt_iff]
          constructor
          · rintro ⟨hα, a2, b2, hab⟩
            exact ⟨b, a2, b2, hα, Or.inl (by rw [hab])⟩
          · rintro ⟨c, mid, post, hα, h | h⟩
            · simp [List.cons.injEq] at h
              obtain ⟨h1, h2⟩ := h
              subst h1
              exact ⟨hα, mid, post, h2⟩
            · simp [List.cons.injEq] at h
              exact absurd h.1 hb
    · constructor
      · intro h; simp [tagAt, ha] at h
      · rintro ⟨c, mid, post, hα, h | h⟩ <;>
          (simp [List.cons.injEq] at h; exact absurd h.1 ha)

theorem containsTag_iff (l : List Char) :
    containsTag l = true ↔ ∃ pre suf, l = pre ++ suf ∧ tagAt suf = true := by
  induction l with
  | nil =>
    constructor
    · intro h; simp [containsTag] at h
    · rintro ⟨pre, suf, h1, h2⟩
      obtain ⟨hp, hs⟩ := List.append_eq_nil.mp h1.symm
      subst hs
      simp [tagAt] at h2
  | cons c cs ih =>
    have hstep : containsTag (c :: cs) = (tagAt (c :: cs) || containsTag cs) := rfl
    rw [hstep, Bool.or_eq_true, ih]
    constructor
    · rintro (h | ⟨pre, suf, h1, h2⟩)
      · exact ⟨[], c :: cs, rfl, h⟩
      · exact ⟨c :: pre, suf, by rw [h1]; rfl, h2⟩
    · rintro ⟨pre, suf, h1, h2⟩
      cases pre with
      | nil =>
        left
        simp at h1
        rw [h1]
        exact h2
      | cons p ps =>
        right
        simp [List.cons.injEq] at h1
        exact ⟨ps, suf, h1.2, h2⟩

theorem replaceChar_append (p : Char) (rep a b : List Char) :
    replaceChar p rep (a ++ b) = replaceChar p rep a ++ replaceChar p rep b := by
  induction a with
  | nil => rfl
  | cons c cs ih => simp [replaceChar, ih]

theorem escapeHtml_chain (l : List Char) :
    replaceChar '>' "&gt;".data
      (replaceChar '<' "&lt;".data
        (replaceChar '&' "&amp;".data l)) = escMap l := by
  induction l with
  | nil => rfl
  | cons c cs ih =>
    have h1 : replaceChar '&' "&amp;".data (c :: cs) =
        (if c = '&' then "&amp;".data else [c]) ++ replaceChar '&' "&amp;".data cs := rfl
    rw [h1, replaceChar_append, replaceChar_append, ih]
    have h2 : escMap (c :: cs) = escChar c ++ escMap cs := rfl
    rw [h2]
    congr 1
    by_cases hamp : c = '&'
    · subst hamp; decide
    · by_cases hlt : c = '<'
      · subst hlt; decide
      · by_cases hgt : c = '>'
        · subst hgt; decide
        · simp [escChar, replaceChar, hamp, hlt, hgt]

theorem escapeHtml_eq_escMap (s : String) :
    escapeHtml s = String.mk (escMap s.data) := by
  unfold escapeHtml
  rw [escapeHtml_chain]

theorem rwSettle_isSome (o : RunOutcome) (s : RWState) :
    ((rwSettle o s).settled).isSome = true := by
  cases h : s.settled <;> simp [rwSettle, h]

theorem rwSettle_some (o : RunOutcome) (s : RWState) (o' : RunOutcome)
    (h : s.settled = some o') : (rwSettle o s).settled = some o' := by
  simp [rwSettle, h]

theorem rwStep_settled_mono (s : RWState) (e : RWEvent) (o : RunOutcome)
    (h : s.settled = some o) : (rwStep s e).settled = some o := by
  cases e with
  | wmsg m =>
    simp only [rwStep, rwOnMessage]
    split_ifs <;> first | exact h | exact rwSettle_some _ _ _ h
  | werror em =>
    simp only [rwStep, rwOnError]
    split_ifs <;> first | exact h | exact rwSettle_some _ _ _ h
  | timer =>
    simp only [rwStep, rwTimer]
    split_ifs <;> first | exact h | exact rwSettle_some _ _ _ h
  | stopClick =>
    simp only [rwStep, rwStop]
    split_ifs <;> exact h

theorem rwFold_settled_mono (s : RWState) (es : List RWEvent) (o : RunOutcome)
    (h : s.settled = some o) : (List.foldl rwStep s es).settled = some o := by
  induction es generalizing s with
  | nil => exact h
  | cons e es ih => exact ih (rwStep s e) (rwStep_settled_mono s e o h)


theorem rwSettle_finished (o : RunOutcome) (s : RWState) :
    (rwSettle o s).finished = s.finished := by
  cases hx : s.settled <;> simp [rwSettle, hx]

theorem rwSettle_timerActive (o : RunOutcome) (s : RWState) :
    (rwSettle o s).timerActive = s.timerActive := by
  cases hx : s.settled <;> simp [rwSettle, hx]

theorem rwSettle_clientTimeout (o : RunOutcome) (s : RWState) :
    (rwSettle o s).clientTimeout = s.clientTimeout := by
  cases hx : s.settled <;> simp [rwSettle, hx]

theorem rwStep_inv (s : RWState) (e : RWEvent)
    (h1 : s.finished = (s.settled).isSome)
    (h2 : s.timerActive = false → s.finished = true) :
    ((rwStep s e).finished = ((rwStep s e).settled).isSome) ∧
    ((rwStep s e).timerActive = false → (rwStep s e).finished = true) := by
  cases e with
  | wmsg m =>
    simp only [rwStep, rwOnMessage]
    split_ifs <;>
      first
        | exact ⟨h1, h2⟩
        | exact ⟨by rw [rwSettle_finished, rwSettle_isSome]; simp [rwCleanup],
                 fun _ => by rw [rwSettle_finished]; simp [rwCleanup]⟩
  | werror em =>
    simp only [rwStep, rwOnError]
    split_ifs
    · exact ⟨h1, h2⟩
    · exact ⟨by rw [rwSettle_finished, rwSettle_isSome]; simp [rwCleanup],
             fun _ => by rw [rwSettle_finished]; simp [rwCleanup]⟩
  | timer =>
    simp only [rwStep, rwTimer]
    split_ifs with ht hf
    · exact ⟨h1, fun _ => hf⟩
    · exact ⟨by rw [rwSettle_finished, rwSettle_isSome],
             fun _ => by rw [rwSettle_finished]⟩
    · exact ⟨h1, h2⟩
  | stopClick =>
    simp only [rwStep, rwStop]
    split_ifs <;> exact ⟨h1, h2⟩

theorem rwFold_inv (s : RWState) (es : List RWEvent)
    (h1 : s.finished = (s.settled).isSome)
    (h2 : s.timerActive = false → s.finished = true) :
    ((List.foldl rwStep s es).finished = ((List.foldl rwStep s es).settled).isSome) ∧
    ((List.foldl rwStep s es).timerActive = false →
      (List.foldl rwStep s es).finished = true) := by
  induction es generalizing s with
  | nil => exact ⟨h1, h2⟩
  | cons e es ih =>
    have h := rwStep_inv s e h1 h2
    exact ih (rwStep s e) h.1 h.2

theorem rwRun_inv (rid tms : Nat) (es : List RWEvent) :
    ((rwRun rid tms es).finished = ((rwRun rid tms es).settled).isSome) ∧
    ((rwRun rid tms es).timerActive = false → (rwRun rid tms es).finished = true) := by
  unfold rwRun
  exact rwFold_inv (rwInit rid tms) es (by simp [rwInit]) (fun h => by simp [rwInit] at h)

theorem rwStep_clientTimeout (s : RWState) (e : RWEvent) :
    (rwStep s e).clientTimeout = s.clientTimeout := by
  cases e with
  | wmsg m =>
    simp only [rwStep, rwOnMessage]
    split_ifs <;> simp [rwSettle_clientTimeout, rwCleanup]
  | werror em =>
    simp only [rwStep, rwOnError]
    split_ifs <;> simp [rwSettle_clientTimeout, rwCleanup]
  | timer =>
    simp only [rwStep, rwTimer]
    split_ifs <;> simp [rwSettle_clientTimeout]
  | stopClick =>
    simp only [rwStep, rwStop]
    split_ifs <;> simp

theorem rwFold_clientTimeout (s : RWState) (es : List RWEvent) :
    (List.foldl rwStep s es).clientTimeout = s.clientTimeout := by
  induction es generalizing s with
  | nil => rfl
  | cons e es ih => rw [List.foldl_cons, ih, rwStep_clientTimeout]

theorem rwRun_timeout_fires (rid tms : Nat) (es : List RWEvent)
    (h : (rwRun rid tms es).finished = false) :
    (rwRun rid tms (es ++ [RWEvent.timer])).settled =
      some (RunOutcome.rejected ("Client-side timeout after " ++ toString tms ++ " ms")) := by
  have hinv := rwRun_inv rid tms es
  have hta : (rwRun rid tms es).timerActive = true := by
    cases hx : (rwRun rid tms es).timerActive
    · rw [hinv.2 hx] at h; exact absurd h (by simp)
    · rfl
  have hnone : (rwRun rid tms es).settled = none := by
    cases hx : (rwRun rid tms es).settled with
    | none => rfl
    | some o =>
      rw [hx] at hinv
      rw [hinv.1] at h
      exact absurd h (by simp)
  have hct : (rwRun rid tms es).clientTimeout = tms := by
    unfold rwRun
    rw [rwFold_clientTimeout]
    rfl
  have hsplit : rwRun rid tms (es ++ [RWEvent.timer]) =
      rwStep (rwRun rid tms es) RWEvent.timer := by
    unfold rwRun
    rw [List.foldl_append]
    rfl
  rw [hsplit]
  simp [rwStep, rwTimer, hta, h, rwSettle, hnone, hct]

theorem tagAtNoSlash_iff (l : List Char) :
    tagAtNoSlash l = true ↔
      ∃ c mid post, c.isAlpha = true ∧ l = '<' :: c :: (mid ++ '>' :: post) := by
  cases l with
  | nil =>
    constructor
    · intro h; simp [tagAtNoSlash] at h
    · rintro ⟨c, mid, post, hα, h⟩; simp at h
  | cons a rest =>
    by_cases ha : a = '<'
    · subst ha
      cases rest with
      | nil =>
        constructor
        · intro h; simp [tagAtNoSlash] at h
        · rintro ⟨c, mid, post, hα, h⟩; simp [List.cons.injEq] at h
      | cons b rest2 =>
        have ht : tagAtNoSlash ('<' :: b :: rest2) = (b.isAlpha && hasGt rest2) := by
          simp [tagAtNoSlash]
        rw [ht, Bool.and_eq_true, hasGt_iff]
        constructor
        · rintro ⟨hα, a2, b2, hab⟩
          exact ⟨b, a2, b2, hα, by rw [hab]⟩
        · rintro ⟨c, mid, post, hα, h⟩
          simp [List.cons.injEq] at h
          obtain ⟨h1, h2⟩ := h
          subst h1
          exact ⟨hα, mid, post, h2⟩
    · constructor
      · intro h; simp [tagAtNoSlash, ha] at h
      · rintro ⟨c, mid, post, hα, h⟩
        simp [List.cons.injEq] at h
        exact absurd h.1 ha

theorem containsTagNoSlash_iff (l : List Char) :
    containsTagNoSlash l = true ↔ SpecTagLikeNoSlash l := by
  unfold SpecTagLikeNoSlash
  induction l with
  | nil =>
    constructor
    · intro h; simp [containsTagNoSlash] at h
    · rintro ⟨pre, c, mid, post, hα, h⟩; simp at h
  | cons x xs ih =>
    have hstep : containsTagNoSlash (x :: xs) =
        (tagAtNoSlash (x :: xs) || containsTagNoSlash xs) := rfl
    rw [hstep, Bool.or_eq_true, ih]
    constructor
    · rintro (h | ⟨pre, c, mid, post, hα, h⟩)
      · obtain ⟨c, mid, post, hα, h⟩ := (tagAtNoSlash_iff (x :: xs)).mp h
        exact ⟨[], c, mid, post, hα, by rw [h]; rfl⟩
      · exact ⟨x :: pre, c, mid, post, hα, by rw [h]; rfl⟩
    · rintro ⟨pre, c, mid, post, hα, h⟩
      cases pre with
      | nil =>
        left
        rw [tagAtNoSlash_iff]
        simp at h
        exact ⟨c, mid, post, hα, by rw [h.1, h.2]⟩
      | cons p ps =>
        right
        simp [List.cons.injEq] at h
        exact ⟨ps, c, mid, post, hα, h.2⟩

theorem handle_stale (m : WMsg) (s : WState) (rid : Nat)
    (hm : msgRunId m = some rid) (h : memN s.pending rid = false) :
    handleWorkerMessage m s = s := by
  unfold handleWorkerMessage
  rw [hm]
  simp [h]

theorem handle_pending_counter (m : WMsg) (s : WState) (rid : Nat)
    (h1 : memN s.pending rid = false) :
    memN (handleWorkerMessage m s).pending rid = false ∧
    (handleWorkerMessage m s).runIdCounter = s.runIdCounter := by
  unfold handleWorkerMessage
  cases hm : msgRunId m with
  | none => exact ⟨h1, rfl⟩
  | some r =>
    dsimp only
    split_ifs <;>
      first
        | exact ⟨h1, rfl⟩
        | exact ⟨memN_removeN_of_false _ _ _ h1, rfl⟩

theorem wStep_pending_counter (c : String) (s : WState) (e : WEvent) (rid : Nat)
    (h1 : memN s.pending rid = false) (h2 : rid ≤ s.runIdCounter) :
    memN (wStep c s e).pending rid = false ∧ rid ≤ (wStep c s e).runIdCounter := by
  cases e with
  | runOk =>
    simp only [wStep]
    split_ifs
    · exact ⟨h1, h2⟩
    · constructor
      · exact memN_insertN_of_ne _ _ _ (by omega) h1
      · show rid ≤ s.runIdCounter + 1
        omega
  | runFail e =>
    simp only [wStep]
    split_ifs <;> exact ⟨h1, h2⟩
  | timer rid2 tms =>
    simp only [wStep]
    split_ifs with ht
    · unfold timerFires
      dsimp only
      split_ifs
      · exact ⟨memN_removeN_of_false _ _ _ h1, h2⟩
      · exact ⟨h1, h2⟩
    · exact ⟨h1, h2⟩
  | wmsg m =>
    simp only [wStep]
    have h := handle_pending_counter m s rid h1
    exact ⟨h.1, by rw [h.2]; exact h2⟩
  | stop =>
    simp only [wStep]
    split_ifs
    · exact ⟨h1, h2⟩
    · exact ⟨rfl, h2⟩
  | reset => exact ⟨h1, h2⟩
  | clear => exact ⟨h1, h2⟩

theorem wSteps_pending_counter (c : String) (s : WState) (es : List WEvent) (rid : Nat)
    (h1 : memN s.pending rid = false) (h2 : rid ≤ s.runIdCounter) :
    memN (wSteps c s es).pending rid = false ∧ rid ≤ (wSteps c s es).runIdCounter := by
  induction es generalizing s with
  | nil => exact ⟨h1, h2⟩
  | cons e es ih =>
    have h := wStep_pending_counter c s e rid h1 h2
    exact ih (wStep c s e) h.1 h.2

/-! ### Claim theorems -/

/-- C6 (amended): the code classifies a text as markup (renders it in the
iframe) if and only if it contains a tag-like substring of the form `<`, an
optional `/`, then a letter, then arbitrary content, then `>`; otherwise it
is treated as plain text.  The optional `/` (closing tags such as `</p>`) is
the amendment to the claim's literal pattern. -/
theorem classification_iff_tag_like (s : String) :
    looksLikeHTML s = true ↔ SpecTagLike s.data := by
  unfold looksLikeHTML SpecTagLike
  by_cases hs : s = ""
  · subst hs
    constructor
    · intro h; simp at h
    · have h0 : ("" : String).data = [] := rfl
      rintro ⟨pre, c, mid, post, hα, h | h⟩ <;> (rw [h0] at h; simp at h)
  · rw [if_neg hs, containsTag_iff]
    constructor
    · rintro ⟨pre, suf, h1, h2⟩
      obtain ⟨c, mid, post, hα, h | h⟩ := (tagAt_iff suf).mp h2
      · exact ⟨pre, c, mid, post, hα, Or.inl (by rw [h1, h])⟩
      · exact ⟨pre, c, mid, post, hα, Or.inr (by rw [h1, h])⟩
    · rintro ⟨pre, c, mid, post, hα, h | h⟩
      · refine ⟨pre, '<' :: c :: (mid ++ '>' :: post), h, ?_⟩
        rw [tagAt_iff]
        exact ⟨c, mid, post, hα, Or.inl rfl⟩
      · refine ⟨pre, '<' :: '/' :: c :: (mid ++ '>' :: post), h, ?_⟩
        rw [tagAt_iff]
        exact ⟨c, mid, post, hα, Or.inr rfl⟩

/-- C6 witness: a markup example classified via the amended pattern. -/
theorem classification_iff_tag_like_witness :
    looksLikeHTML "x<b>y" = true ↔ SpecTagLike (String.data "x<b>y") :=
  classification_iff_tag_like "x<b>y"

/-- C6 counterexample: the closing tag `</p>` is classified as markup by the
code, yet it contains no substring of the claim's literal pattern `<` then a
letter then arbitrary content then `>`; the claimed equivalence fails. -/
theorem closing_tag_markup_without_claimed_pattern :
    looksLikeHTML "</p>" = true ∧ ¬ SpecTagLikeNoSlash (String.data "</p>") := by
  constructor
  · decide
  · intro h
    have hb : containsTagNoSlash (String.data "</p>") = true :=
      (containsTagNoSlash_iff (String.data "</p>")).mpr h
    exact absurd hb (by decide)

/-- C7 (amended): the pending-map normalizer turns a structured result with
stdout and stderr fields into stdout, then a newline and stderr when stderr
is non-empty, and stringifies results of unrecognized shape instead of
failing; the first implementation additionally trims the combined string and
stringifies structured results whose two streams are both empty. -/
theorem normalizer_combines_streams_and_stringifies
    (so se other : String) (m m2 : WMsg)
    (h1 : m.output = none) (h2 : m.result = none) (h3 : m.stdout = some so)
    (h4 : m.stderr = some se)
    (h5 : m2.output = none) (h6 : m2.result = none) (h7 : m2.stdout = none) :
    normalizeMsg m = so ++ (if se = "" then "" else "\n" ++ se) ∧
    normalizeMsg m2 = jsonStringifyMsg m2 ∧
    normalizeResult1 (RawResult.robj (some so) (some se)) =
      (if so = "" ∧ se = "" then "[object Object]"
       else jsTrim (so ++ (if se = "" then "" else "\n" ++ se))) ∧
    normalizeResult1 (RawResult.rother other) = other := by
  refine ⟨?_, ?_, ?_, rfl⟩
  · simp only [normalizeMsg, h1, h2, h3, h4]
  · simp only [normalizeMsg, h5, h6, h7]
  · unfold normalizeResult1
    by_cases hso : so = ""
    · by_cases hse : se = ""
      · subst hso; subst hse
        simp [truthyS]
      · subst hso
        simp [truthyS, hse, jsOrStr]
    · by_cases hse : se = ""
      · subst hse
        simp [truthyS, hso, jsOrStr]
      · simp [truthyS, hso, hse, jsOrStr]

/-- C7 witness: a structured result with stdout "out" and stderr "err" in
both normalizers, and a shapeless message stringified. -/
theorem normalizer_combines_streams_and_stringifies_witness :
    ((⟨some "result", some 1, none, none, none, some "out", some "err", none, none⟩ : WMsg).output = none ∧
     (⟨some "result", some 1, none, none, none, some "out", some "err", none, none⟩ : WMsg).result = none ∧
     (⟨some "result", some 1, none, none, none, some "out", some "err", none, none⟩ : WMsg).stdout = some "out" ∧
     (⟨some "result", some 1, none, none, none, some "out", some "err", none, none⟩ : WMsg).stderr = some "err" ∧
     (⟨some "ready", none, none, none, none, none, none, none, none⟩ : WMsg).output = none ∧
     (⟨some "ready", none, none, none, none, none, none, none, none⟩ : WMsg).result = none ∧
     (⟨some "ready", none, none, none, none, none, none, none, none⟩ : WMsg).stdout = none) ∧
    (normalizeMsg ⟨some "result", some 1, none, none, none, some "out", some "err", none, none⟩ =
       "out" ++ (if "err" = "" then "" else "\n" ++ "err") ∧
     normalizeMsg ⟨some "ready", none, none, none, none, none, none, none, none⟩ =
       jsonStringifyMsg ⟨some "ready", none, none, none, none, none, none, none, none⟩ ∧
     normalizeResult1 (RawResult.robj (some "out") (some "err")) =
       (if "out" = "" ∧ "err" = "" then "[object Object]"
        else jsTrim ("out" ++ (if "err" = "" then "" else "\n" ++ "err"))) ∧
     normalizeResult1 (RawResult.rother "weird") = "weird") :=
  ⟨⟨rfl, rfl, rfl, rfl, rfl, rfl, rfl⟩,
   normalizer_combines_streams_and_stringifies "out" "err" "weird"
     ⟨some "result", some 1, none, none, none, some "out", some "err", none, none⟩
     ⟨some "ready", none, none, none, none, none, none, none, none⟩
     rfl rfl rfl rfl rfl rfl rfl⟩

/-- C7 counterexample: the first implementation's normalizer trims the
combined string: a structured result with stdout `"a "` and empty stderr
normalizes to `"a"`, not to the claimed plain concatenation `"a "`. -/
theorem impl1_normalizer_trims_structured_result :
    normalizeResult1 (RawResult.robj (some "a ") (some "")) = "a" ∧
    normalizeResult1 (RawResult.robj (some "a ") (some "")) ≠ "a " := by
  constructor <;> decide

/-- C8: for a non-empty text result with no error set and no tag-like
substring, renderOutput renders it as escaped preformatted text, and the
escaping is a per-character map: each occurrence of `&`, `<`, `>` is escaped
exactly once (never re-escaped) and every other character, including spaces
and line breaks, is kept verbatim. -/
theorem plain_text_escaped_exactly_once (err : Option String) (out : String)
    (h1 : err = none) (h2 : out ≠ "") (h3 : containsTagStr out = false) :
    renderOutput1 err out = Rendered.preText (escapeHtml out) ∧
    escapeHtml out = String.mk (escMap out.data) ∧
    escChar '\n' = ['\n'] ∧ escChar ' ' = [' '] := by
  refine ⟨?_, escapeHtml_eq_escMap out, by decide, by decide⟩
  subst h1
  have hc1 : ¬(out = "" ∧ truthyS (none : Option String) = false) := fun h => h2 h.1
  have hc2 : ¬(truthyS (none : Option String) = true) := by simp [truthyS]
  have hc3 : ¬(looksLikeHTML out = true) := by
    unfold looksLikeHTML
    rw [if_neg h2]
    unfold containsTagStr at h3
    simp [h3]
  unfold renderOutput1
  rw [if_neg hc1, if_neg hc2, if_neg hc3]

/-- C8 witness: the plain text "a & b < c" is rendered escaped exactly once. -/
theorem plain_text_escaped_exactly_once_witness :
    ((none : Option String) = none ∧ "a & b < c" ≠ "" ∧
      containsTagStr "a & b < c" = false) ∧
    (renderOutput1 none "a & b < c" = Rendered.preText (escapeHtml "a & b < c") ∧
     escapeHtml "a & b < c" = String.mk (escMap (String.data "a & b < c")) ∧
     escChar '\n' = ['\n'] ∧ escChar ' ' = [' ']) :=
  ⟨⟨rfl, by decide, by decide⟩,
   plain_text_escaped_exactly_once none "a & b < c" rfl (by decide) (by decide)⟩

/-- C9: in both worker variants, reset restores the source text to the
original `code` prop, sets status `idle`, clears the output to empty (and the
error), and applying reset twice yields exactly the state of applying it
once. -/
theorem reset_restores_and_idempotent (c : String) (s : WState) (s2 : State2) :
    (resetCode c s).src = c ∧ (resetCode c s).output = "" ∧
    (resetCode c s).status = WStatus.idle ∧ (resetCode c s).lastError = none ∧
    resetCode c (resetCode c s) = resetCode c s ∧
    (resetCode2 c s2).src = c ∧ (resetCode2 c s2).output = "" ∧
    (resetCode2 c s2).status = WStatus.idle ∧ (resetCode2 c s2).lastError = none ∧
    resetCode2 c (resetCode2 c s2) = resetCode2 c s2 :=
  ⟨rfl, rfl, rfl, rfl, rfl, rfl, rfl, rfl, rfl, rfl⟩

/-- C9 witness: reset at a concrete dirty state. -/
theorem reset_restores_and_idempotent_witness :
    (resetCode "orig" ⟨"edited", "old", true, WStatus.error, some "boom", 3, [3], [3]⟩).src = "orig" ∧
    (resetCode "orig" ⟨"edited", "old", true, WStatus.error, some "boom", 3, [3], [3]⟩).output = "" ∧
    (resetCode "orig" ⟨"edited", "old", true, WStatus.error, some "boom", 3, [3], [3]⟩).status = WStatus.idle ∧
    (resetCode "orig" ⟨"edited", "old", true, WStatus.error, some "boom", 3, [3], [3]⟩).lastError = none ∧
    resetCode "orig" (resetCode "orig" ⟨"edited", "old", true, WStatus.error, some "boom", 3, [3], [3]⟩) =
      resetCode "orig" ⟨"edited", "old", true, WStatus.error, some "boom", 3, [3], [3]⟩ ∧
    (resetCode2 "orig" ⟨"edited", "old", true, WStatus.timeout, some "boom"⟩).src = "orig" ∧
    (resetCode2 "orig" ⟨"edited", "old", true, WStatus.timeout, some "boom"⟩).output = "" ∧
    (resetCode2 "orig" ⟨"edited", "old", true, WStatus.timeout, some "boom"⟩).status = WStatus.idle ∧
    (resetCode2 "orig" ⟨"edited", "old", true, WStatus.timeout, some "boom"⟩).lastError = none ∧
    resetCode2 "orig" (resetCode2 "orig" ⟨"edited", "old", true, WStatus.timeout, some "boom"⟩) =
      resetCode2 "orig" ⟨"edited", "old", true, WStatus.timeout, some "boom"⟩ :=
  reset_restores_and_idempotent "orig"
    ⟨"edited", "old", true, WStatus.error, some "boom", 3, [3], [3]⟩
    ⟨"edited", "old", true, WStatus.timeout, some "boom"⟩

/-- C10: in the first implementation, when no engine handle is present at
invocation time, runCode awaits loadRuntime and then returns: the engine is
never invoked, isRunning is reset to false, the output stays empty, and in
the successful-load case no error is set — because the handle re-checked
after loading is the render-time closure's, even though the load stored the
new instance (`php = some ()` afterwards). -/
theorem stale_handle_run_returns_without_executing (s : S1) (race : RaceOut)
    (h1 : s.php = none) (h2 : s.isLoadingRuntime = false) :
    (runCode1 s (Except.ok ()) race s).2 = false ∧
    (runCode1 s (Except.ok ()) race s).1.isRunning = false ∧
    (runCode1 s (Except.ok ()) race s).1.output = "" ∧
    (runCode1 s (Except.ok ()) race s).1.error = none ∧
    (runCode1 s (Except.ok ()) race s).1.php = some () := by
  unfold runCode1 loadRuntime1
  simp [h1, h2]

/-- C10 witness: concrete first-run state with no handle. -/
theorem stale_handle_run_returns_without_executing_witness :
    ((⟨"c", "", false, false, none, none, false, false⟩ : S1).php = none ∧
     (⟨"c", "", false, false, none, none, false, false⟩ : S1).isLoadingRuntime = false) ∧
    ((runCode1 ⟨"c", "", false, false, none, none, false, false⟩ (Except.ok ())
        (RaceOut.settledR (RawResult.rstr "5")) ⟨"c", "", false, false, none, none, false, false⟩).2 = false ∧
     (runCode1 ⟨"c", "", false, false, none, none, false, false⟩ (Except.ok ())
        (RaceOut.settledR (RawResult.rstr "5")) ⟨"c", "", false, false, none, none, false, false⟩).1.isRunning = false ∧
     (runCode1 ⟨"c", "", false, false, none, none, false, false⟩ (Except.ok ())
        (RaceOut.settledR (RawResult.rstr "5")) ⟨"c", "", false, false, none, none, false, false⟩).1.output = "" ∧
     (runCode1 ⟨"c", "", false, false, none, none, false, false⟩ (Except.ok ())
        (RaceOut.settledR (RawResult.rstr "5")) ⟨"c", "", false, false, none, none, false, false⟩).1.error = none ∧
     (runCode1 ⟨"c", "", false, false, none, none, false, false⟩ (Except.ok ())
        (RaceOut.settledR (RawResult.rstr "5")) ⟨"c", "", false, false, none, none, false, false⟩).1.php = some ()) :=
  ⟨⟨rfl, rfl⟩,
   stale_handle_run_returns_without_executing ⟨"c", "", false, false, none, none, false, false⟩
     (RaceOut.settledR (RawResult.rstr "5")) rfl rfl⟩

/-- C1 (amended): every inbound worker message is matched against the pending
table: a message whose identifier is unknown (absent or zero) or stale (no
pending entry under it) is ignored and changes nothing, and the
worker-per-run handler likewise drops non-debug messages whose truthy id
differs from its captured run id.  The claim's particular clause — a message
carrying id N arriving after run N+1 started never changes the visible state
— holds only while run N is no longer pending: a reset while run N is in
flight re-enables Run without discarding run N's pending entry, and run N's
late message is then processed (see the counterexample). -/
theorem stale_or_unknown_message_ignored (s : WState) (m m2 : WMsg) (rid : Nat)
    (s2 : RWState) (m3 : WMsg2)
    (hm : msgRunId m = some rid) (hst : memN s.pending rid = false)
    (hm2 : msgRunId m2 = none)
    (hid : truthyN m3.id = true) (hne : m3.id ≠ some s2.runId)
    (hnd : m3.type ≠ some "debug") :
    handleWorkerMessage m s = s ∧ handleWorkerMessage m2 s = s ∧
    rwOnMessage m3 s2 = s2 := by
  refine ⟨handle_stale m s rid hm hst, ?_, ?_⟩
  · unfold handleWorkerMessage
    rw [hm2]
  · unfold rwOnMessage
    by_cases ha : s2.workerAlive = false
    · rw [if_pos ha]
    · rw [if_neg ha, if_pos ⟨hid, hne, hnd⟩]

/-- C1 witness: run 2 is pending; a stale id-1 result, an id-less ready
message, and a mismatched-id worker message are all dropped. -/
theorem stale_or_unknown_message_ignored_witness :
    (msgRunId ⟨some "result", some 1, none, some "x", none, none, none, none, none⟩ = some 1 ∧
     memN (⟨"c", "", false, WStatus.running, none, 2, [2], [2]⟩ : WState).pending 1 = false ∧
     msgRunId ⟨some "ready", none, none, none, none, none, none, none, none⟩ = none ∧
     truthyN (⟨some "result", some 1, some "x", none⟩ : WMsg2).id = true ∧
     (⟨some "result", some 1, some "x", none⟩ : WMsg2).id ≠ some (rwInit 2 10).runId ∧
     (⟨some "result", some 1, some "x", none⟩ : WMsg2).type ≠ some "debug") ∧
    (handleWorkerMessage ⟨some "result", some 1, none, some "x", none, none, none, none, none⟩
        ⟨"c", "", false, WStatus.running, none, 2, [2], [2]⟩ =
      ⟨"c", "", false, WStatus.running, none, 2, [2], [2]⟩ ∧
     handleWorkerMessage ⟨some "ready", none, none, none, none, none, none, none, none⟩
        ⟨"c", "", false, WStatus.running, none, 2, [2], [2]⟩ =
      ⟨"c", "", false, WStatus.running, none, 2, [2], [2]⟩ ∧
     rwOnMessage ⟨some "result", some 1, some "x", none⟩ (rwInit 2 10) = rwInit 2 10) :=
  ⟨⟨rfl, rfl, rfl, rfl, by decide, by decide⟩,
   stale_or_unknown_message_ignored
     ⟨"c", "", false, WStatus.running, none, 2, [2], [2]⟩
     ⟨some "result", some 1, none, some "x", none, none, none, none, none⟩
     ⟨some "ready", none, none, none, none, none, none, none, none⟩ 1
     (rwInit 2 10) ⟨some "result", some 1, some "x", none⟩
     rfl rfl rfl rfl (by decide) (by decide)⟩

/-- C1 counterexample: run 1 starts; the user resets (the pending entry for
run 1 survives, the status returns to idle and Run is re-enabled); run 2
starts; then a message carrying the stale identifier 1 arrives after run 2
has started and is processed: the visible output flips from "" to "STALE"
and the status from running to idle, contradicting the claim. -/
theorem stale_message_after_reset_changes_output :
    (wSteps "c" (initState "c") [WEvent.runOk, WEvent.reset, WEvent.runOk]).output = "" ∧
    (wSteps "c" (initState "c") [WEvent.runOk, WEvent.reset, WEvent.runOk]).status =
      WStatus.running ∧
    (wStep "c" (wSteps "c" (initState "c") [WEvent.runOk, WEvent.reset, WEvent.runOk])
        (WEvent.wmsg ⟨some "result", some 1, none, some "STALE", none, none, none, none, none⟩)).output =
      "STALE" ∧
    (wStep "c" (wSteps "c" (initState "c") [WEvent.runOk, WEvent.reset, WEvent.runOk])
        (WEvent.wmsg ⟨some "result", some 1, none, some "STALE", none, none, none, none, none⟩)).status =
      WStatus.idle := by
  refine ⟨?_, ?_, ?_, ?_⟩ <;> decide

/-- C2: when a run's timeout timer fires while the run is still pending, the
visible status becomes timeout with the timeout message and error exposed,
and a late message carrying that run's identifier is ignored even after
arbitrary further events; in the worker-per-run variant, the timer firing
before the run finished settles the promise with the timeout rejection,
no later event changes the settlement, and the continuation shows status
timeout. -/
theorem timeout_then_late_result_ignored
    (c : String) (s : WState) (rid tms : Nat) (m : WMsg) (es : List WEvent)
    (hp : memN s.pending rid = true) (hc : rid ≤ s.runIdCounter)
    (hm : msgRunId m = some rid)
    (rid2 tms2 : Nat) (es2 es3 : List RWEvent) (s2 : State2)
    (hf : (rwRun rid2 tms2 es2).finished = false) :
    (timerFires rid tms s).status = WStatus.timeout ∧
    (timerFires rid tms s).output = "[Error] Execution timeout" ∧
    (timerFires rid tms s).lastError =
      some ("Execution timeout after " ++ toString tms ++ " ms") ∧
    handleWorkerMessage m (wSteps c (timerFires rid tms s) es) =
      wSteps c (timerFires rid tms s) es ∧
    (rwRun rid2 tms2 ((es2 ++ [RWEvent.timer]) ++ es3)).settled =
      some (RunOutcome.rejected
        ("Client-side timeout after " ++ toString tms2 ++ " ms")) ∧
    (finishRun2
        (RunOutcome.rejected ("Client-side timeout after " ++ toString tms2 ++ " ms"))
        s2).status = WStatus.timeout := by
  have htf : timerFires rid tms s =
      { s with activeTimers := removeN s.activeTimers rid,
               pending := removeN s.pending rid,
               status := WStatus.timeout,
               lastError := some ("Execution timeout after " ++ toString tms ++ " ms"),
               output := "[Error] Execution timeout" } := by
    unfold timerFires
    dsimp only
    rw [if_pos hp]
  refine ⟨by rw [htf], by rw [htf], by rw [htf], ?_, ?_, ?_⟩
  · have hnp : memN (timerFires rid tms s).pending rid = false := by
      rw [htf]
      exact memN_removeN_self _ _
    have hcnt : rid ≤ (timerFires rid tms s).runIdCounter := by
      rw [htf]
      exact hc
    have hsteps := wSteps_pending_counter c (timerFires rid tms s) es rid hnp hcnt
    exact handle_stale m _ rid hm hsteps.1
  · have h5 := rwRun_timeout_fires rid2 tms2 es2 hf
    have hdec : rwRun rid2 tms2 ((es2 ++ [RWEvent.timer]) ++ es3) =
        List.foldl rwStep (rwRun rid2 tms2 (es2 ++ [RWEvent.timer])) es3 := by
      unfold rwRun
      rw [List.foldl_append]
    rw [hdec]
    exact rwFold_settled_mono _ es3 _ h5
  · have hjt : jsIncludesTimeout
        ("Client-side timeout after " ++ toString tms2 ++ " ms") = true := by
      rw [String.append_assoc]
      exact jsIncludesTimeout_client (toString tms2 ++ " ms")
    unfold finishRun2 statusOfOutcome
    dsimp only
    rw [if_pos hjt]

/-- C2 witness: run 1 with a 10 ms timer still pending times out; its late
result message is then dropped, and in the worker-per-run model the timeout
settles the promise, survives a later result message, and yields status
timeout. -/
theorem timeout_then_late_result_ignored_witness :
    (memN (⟨"c", "", false, WStatus.running, none, 1, [1], [1]⟩ : WState).pending 1 = true ∧
     (1 : Nat) ≤ (⟨"c", "", false, WStatus.running, none, 1, [1], [1]⟩ : WState).runIdCounter ∧
     msgRunId ⟨some "result", some 1, none, some "late", none, none, none, none, none⟩ = some 1 ∧
     (rwRun 1 10 []).finished = false) ∧
    ((timerFires 1 10 ⟨"c", "", false, WStatus.running, none, 1, [1], [1]⟩).status = WStatus.timeout ∧
     (timerFires 1 10 ⟨"c", "", false, WStatus.running, none, 1, [1], [1]⟩).output =
       "[Error] Execution timeout" ∧
     (timerFires 1 10 ⟨"c", "", false, WStatus.running, none, 1, [1], [1]⟩).lastError =
       some ("Execution timeout after " ++ toString 10 ++ " ms") ∧
     handleWorkerMessage ⟨some "result", some 1, none, some "late", none, none, none, none, none⟩
        (wSteps "c" (timerFires 1 10 ⟨"c", "", false, WStatus.running, none, 1, [1], [1]⟩) []) =
       wSteps "c" (timerFires 1 10 ⟨"c", "", false, WStatus.running, none, 1, [1], [1]⟩) [] ∧
     (rwRun 1 10 (([] ++ [RWEvent.timer]) ++
         [RWEvent.wmsg ⟨some "result", some 1, some "x", none⟩])).settled =
       some (RunOutcome.rejected ("Client-side timeout after " ++ toString 10 ++ " ms")) ∧
     (finishRun2 (RunOutcome.rejected ("Client-side timeout after " ++ toString 10 ++ " ms"))
        ⟨"c", "", false, WStatus.running, none⟩).status = WStatus.timeout) :=
  ⟨⟨rfl, by decide, rfl, rfl⟩,
   timeout_then_late_result_ignored "c" ⟨"c", "", false, WStatus.running, none, 1, [1], [1]⟩
     1 10 ⟨some "result", some 1, none, some "late", none, none, none, none, none⟩ []
     rfl (by decide) rfl 1 10 []
     [RWEvent.wmsg ⟨some "result", some 1, some "x", none⟩]
     ⟨"c", "", false, WStatus.running, none⟩ rfl⟩

/-- C3: one runWithWorker invocation settles exactly once: after the client
timer event (which wall-clock time always eventually delivers) the promise
is settled, and no events processed after a settlement change the settled
outcome — a late result, error, stop or second timer cannot overwrite it. -/
theorem run_settles_exactly_once (rid tms : Nat) (es es2 : List RWEvent)
    (h : RWEvent.timer ∈ es) :
    ((rwRun rid tms es).settled).isSome = true ∧
    (rwRun rid tms (es ++ es2)).settled = (rwRun rid tms es).settled := by
  obtain ⟨l1, l2, rfl⟩ := List.append_of_mem h
  have hpre := rwRun_inv rid tms l1
  have hstep : ((rwStep (rwRun rid tms l1) RWEvent.timer).settled).isSome = true := by
    cases hfin : (rwRun rid tms l1).finished
    · have hta : (rwRun rid tms l1).timerActive = true := by
        cases hx : (rwRun rid tms l1).timerActive
        · rw [hpre.2 hx] at hfin
          exact absurd hfin (by simp)
        · rfl
      simp only [rwStep, rwTimer, hta, if_true]
      simp [hfin, rwSettle_isSome]
    · have hs : ((rwRun rid tms l1).settled).isSome = true := by
        rw [← hpre.1]
        exact hfin
      obtain ⟨o, ho⟩ := Option.isSome_iff_exists.mp hs
      rw [rwStep_settled_mono _ RWEvent.timer o ho]
      rfl
  have hdecomp : rwRun rid tms (l1 ++ RWEvent.timer :: l2) =
      List.foldl rwStep (rwStep (rwRun rid tms l1) RWEvent.timer) l2 := by
    unfold rwRun
    rw [List.foldl_append]
    rfl
  have hsome : ((rwRun rid tms (l1 ++ RWEvent.timer :: l2)).settled).isSome = true := by
    rw [hdecomp]
    obtain ⟨o, ho⟩ := Option.isSome_iff_exists.mp hstep
    rw [rwFold_settled_mono _ l2 o ho]
    rfl
  refine ⟨hsome, ?_⟩
  obtain ⟨o, ho⟩ := Option.isSome_iff_exists.mp hsome
  have hdec2 : rwRun rid tms ((l1 ++ RWEvent.timer :: l2) ++ es2) =
      List.foldl rwStep (rwRun rid tms (l1 ++ RWEvent.timer :: l2)) es2 := by
    unfold rwRun
    rw [List.foldl_append]
  rw [hdec2, rwFold_settled_mono _ es2 o ho, ho]

/-- C3 witness: a run whose timer fires is settled, and a late result event
afterwards leaves the settlement unchanged. -/
theorem run_settles_exactly_once_witness :
    (RWEvent.timer ∈ [RWEvent.timer]) ∧
    (((rwRun 1 10 [RWEvent.timer]).settled).isSome = true ∧
     (rwRun 1 10 ([RWEvent.timer] ++
        [RWEvent.wmsg ⟨some "result", some 1, some "late", none⟩])).settled =
       (rwRun 1 10 [RWEvent.timer]).settled) :=
  ⟨by decide,
   run_settles_exactly_once 1 10 [RWEvent.timer]
     [RWEvent.wmsg ⟨some "result", some 1, some "late", none⟩] (by decide)⟩

/-- C4 (amended): in the pending-map variant a worker-initialization failure
settles the run with the failure without entering running: the statuses
assigned are loading then error, the failure is exposed as the error and
output, no execution timer is started and no pending entry is created.  In
the worker-per-run variant the load happens inside the per-run worker after
`running` has been set and the client timer started (see the
counterexample). -/
theorem load_failure_settles_without_running (c : String) (e : String) (s : WState)
    (h : ¬(s.status = WStatus.running ∨ s.status = WStatus.loading)) :
    wStep c s (WEvent.runFail e) = startRunFail e s ∧
    (startRunFail e s).status = WStatus.error ∧
    (startRunFail e s).lastError = some e ∧
    (startRunFail e s).output = "[Error] " ++ e ∧
    (startRunFail e s).activeTimers = s.activeTimers ∧
    (startRunFail e s).pending = s.pending ∧
    startRunFailStatuses = [WStatus.loading, WStatus.error] ∧
    WStatus.running ∉ startRunFailStatuses := by
  refine ⟨?_, rfl, rfl, rfl, rfl, rfl, rfl, by decide⟩
  simp only [wStep, if_neg h]

/-- C4 witness: a load failure from the idle state. -/
theorem load_failure_settles_without_running_witness :
    (¬((initState "c").status = WStatus.running ∨ (initState "c").status = WStatus.loading)) ∧
    (wStep "c" (initState "c") (WEvent.runFail "Worker initialization timeout") =
       startRunFail "Worker initialization timeout" (initState "c") ∧
     (startRunFail "Worker initialization timeout" (initState "c")).status = WStatus.error ∧
     (startRunFail "Worker initialization timeout" (initState "c")).lastError =
       some "Worker initialization timeout" ∧
     (startRunFail "Worker initialization timeout" (initState "c")).output =
       "[Error] " ++ "Worker initialization timeout" ∧
     (startRunFail "Worker initialization timeout" (initState "c")).activeTimers =
       (initState "c").activeTimers ∧
     (startRunFail "Worker initialization timeout" (initState "c")).pending =
       (initState "c").pending ∧
     startRunFailStatuses = [WStatus.loading, WStatus.error] ∧
     WStatus.running ∉ startRunFailStatuses) :=
  ⟨by decide,
   load_failure_settles_without_running "c" "Worker initialization timeout"
     (initState "c") (by decide)⟩

/-- C4 counterexample: in the worker-per-run variant, a run whose in-worker
load exhausts all candidate sources still passes through `running` — its
status trace is loading, running, error — and the client timeout timer is
started when the run begins, contradicting "the `running` state is never
entered, and no timeout timer is started". -/
theorem load_failure_enters_running_in_worker_variant :
    WStatus.running ∈ runCode2Statuses (RunOutcome.rejected
      "Could not load php-wasm runtime from /php-wasm/php-worker.mjs or /php-wasm/php-worker.js") ∧
    runCode2Statuses (RunOutcome.rejected
        "Could not load php-wasm runtime from /php-wasm/php-worker.mjs or /php-wasm/php-worker.js") =
      [WStatus.loading, WStatus.running, WStatus.error] ∧
    (rwInit 1 8000).timerActive = true := by
  refine ⟨?_, ?_, rfl⟩ <;> decide

/-- C5 (amended): in the pending-map variant, stop cancels every pending
request's timeout timer, discards the pending entries, abandons the worker
(whose late messages are then discarded, even after arbitrary further
events), and shows `stopped`.  In the worker-per-run variant the worker is
terminated but the timeout timer is NOT cancelled, and when it fires the
status moves on from `stopped` to `timeout` (see the counterexample). -/
theorem stop_discards_pending_and_timers (c : String) (s : WState) (m : WMsg)
    (rid : Nat) (es : List WEvent)
    (hne : ¬ s.pending = []) (hinv : s.activeTimers = s.pending)
    (hm : msgRunId m = some rid) (hr : rid ≤ s.runIdCounter) :
    wStep c s WEvent.stop = stopExec s ∧
    (stopExec s).status = WStatus.stopped ∧
    (stopExec s).output = "[Execution stopped]" ∧
    (stopExec s).pending = [] ∧
    (stopExec s).activeTimers = [] ∧
    handleWorkerMessage m (wSteps c (stopExec s) es) = wSteps c (stopExec s) es := by
  have hat : (stopExec s).activeTimers = [] := by
    show removeMany s.activeTimers s.pending = []
    rw [hinv]
    exact removeMany_sub_nil _ _ (fun x hx => hx)
  refine ⟨?_, rfl, rfl, rfl, hat, ?_⟩
  · simp only [wStep, if_neg hne]
  · have hnp : memN (stopExec s).pending rid = false := rfl
    have hcnt : rid ≤ (stopExec s).runIdCounter := hr
    have hsteps := wSteps_pending_counter c (stopExec s) es rid hnp hcnt
    exact handle_stale m _ rid hm hsteps.1

/-- C5 witness: stopping while run 1 is pending, then dropping its late
result. -/
theorem stop_discards_pending_and_timers_witness :
    (¬(⟨"c", "", false, WStatus.running, none, 1, [1], [1]⟩ : WState).pending = [] ∧
     (⟨"c", "", false, WStatus.running, none, 1, [1], [1]⟩ : WState).activeTimers =
       (⟨"c", "", false, WStatus.running, none, 1, [1], [1]⟩ : WState).pending ∧
     msgRunId ⟨some "result", some 1, none, some "late", none, none, none, none, none⟩ = some 1 ∧
     (1 : Nat) ≤ (⟨"c", "", false, WStatus.running, none, 1, [1], [1]⟩ : WState).runIdCounter) ∧
    (wStep "c" ⟨"c", "", false, WStatus.running, none, 1, [1], [1]⟩ WEvent.stop =
       stopExec ⟨"c", "", false, WStatus.running, none, 1, [1], [1]⟩ ∧
     (stopExec ⟨"c", "", false, WStatus.running, none, 1, [1], [1]⟩).status = WStatus.stopped ∧
     (stopExec ⟨"c", "", false, WStatus.running, none, 1, [1], [1]⟩).output = "[Execution stopped]" ∧
     (stopExec ⟨"c", "", false, WStatus.running, none, 1, [1], [1]⟩).pending = [] ∧
     (stopExec ⟨"c", "", false, WStatus.running, none, 1, [1], [1]⟩).activeTimers = [] ∧
     handleWorkerMessage ⟨some "result", some 1, none, some "late", none, none, none, none, none⟩
        (wSteps "c" (stopExec ⟨"c", "", false, WStatus.running, none, 1, [1], [1]⟩) []) =
       wSteps "c" (stopExec ⟨"c", "", false, WStatus.running, none, 1, [1], [1]⟩) []) :=
  ⟨⟨by decide, rfl, rfl, by decide⟩,
   stop_discards_pending_and_timers "c" ⟨"c", "", false, WStatus.running, none, 1, [1], [1]⟩
     ⟨some "result", some 1, none, some "late", none, none, none, none, none⟩ 1 []
     (by decide) rfl rfl (by decide)⟩

/-- C5 counterexample: in the worker-per-run variant, stop terminates the
worker but leaves the client timer armed and the run unfinished; the timer
then fires and rejects the still-pending promise with the timeout message,
and the continuation overwrites the `stopped` status with `timeout`,
contradicting "the request's timeout timer is cancelled". -/
theorem stop_leaves_timer_active_in_worker_variant :
    (rwRun 1 100 [RWEvent.stopClick]).timerActive = true ∧
    (rwRun 1 100 [RWEvent.stopClick]).finished = false ∧
    (rwRun 1 100 [RWEvent.stopClick, RWEvent.timer]).settled =
      some (RunOutcome.rejected "Client-side timeout after 100 ms") ∧
    (stopExec2 true ⟨"c", "", false, WStatus.running, none⟩).status = WStatus.stopped ∧
    (finishRun2 (RunOutcome.rejected "Client-side timeout after 100 ms")
        (stopExec2 true ⟨"c", "", false, WStatus.running, none⟩)).status = WStatus.timeout := by
  refine ⟨rfl, rfl, ?_, rfl, ?_⟩ <;> decide
